import Mathlib

/-!
Verification of the btrfs report-parsing core of control-center/go-fsutils
(src/btrfs/volumes.go) against its specification.

The Go source is shallowly embedded below.  Conventions:

* Go `uint64` / `uint32` values are `Nat`; every arithmetic step whose Go
  counterpart can wrap is reduced modulo `2^64` (resp. checked against
  `2^32`) at the point where Go performs it.
* Fallible Go functions returning `(T, error)` become `Except Err T`.
  Each distinct `fmt.Errorf` site in the source gets its own `Err`
  constructor carrying the same context (offending line or field) that the
  Go error message interpolates.
* A Go runtime panic from an out-of-range slice index (`fields[i]` on a
  slice that is too short) is modelled by the distinguished value
  `Err.indexOutOfRange`; it is never produced by a `return err` in the
  source, so `.error .indexOutOfRange` is exactly "the Go code panics".
* Side effects (launching the btrfs binary, printing) live outside the
  parsing core; functions that consume command output take the captured
  stdout/stderr line sequences as arguments.
-/

/-- Whitespace predicate of Go `unicode.IsSpace` restricted to the code
points it classifies as space in Latin-1: tab, newline, vertical tab,
form feed, carriage return, space, NEL (U+0085) and NBSP (U+00A0). -/
def goIsSpace (c : Char) : Bool :=
  c = ' ' || c = '\t' || c = '\n' || c = '\x0b' || c = '\x0c' || c = '\r' ||
  c = '\x85' || c = '\xa0'

/-- Character-list splitter behind `goFields`: accumulates the current run
of non-space characters (in reverse) and emits it when hitting a space. -/
def fieldsAux : List Char → List Char → List (List Char)
  | [], acc => if acc.isEmpty then [] else [acc.reverse]
  | c :: rest, acc =>
    if goIsSpace c then
      if acc.isEmpty then fieldsAux rest []
      else acc.reverse :: fieldsAux rest []
    else fieldsAux rest (c :: acc)

/-- Go `strings.Fields`: split around maximal runs of white space,
dropping empty pieces; whitespace-only input yields the empty slice. -/
def goFields (s : String) : List String :=
  (fieldsAux s.data []).map String.mk

/-- Go `strings.TrimSpace`: remove leading and trailing white space. -/
def goTrimSpace (s : String) : String :=
  String.mk (((s.data.dropWhile (goIsSpace ·)).reverse.dropWhile
    (goIsSpace ·)).reverse)

/-- Go `strings.HasPrefix` on character lists (string first, pattern
second). -/
def startsWithCh : List Char → List Char → Bool
  | _, [] => true
  | [], _ :: _ => false
  | c :: s, p :: ps => c = p && startsWithCh s ps

/-- Go `strings.HasPrefix`. -/
def goStartsWith (s pat : String) : Bool :=
  startsWithCh s.data pat.data

/-- Go `strings.SplitAfter(s, sep)` specialised to the one-character
separator used by the source; splits after every occurrence of the
separator character. -/
def splitAfterChAux (sep : Char) : List Char → List Char → List (List Char)
  | [], acc => [acc.reverse]
  | c :: rest, acc =>
    if c = sep then (c :: acc).reverse :: splitAfterChAux sep rest []
    else splitAfterChAux sep rest (c :: acc)

/-- Go `strings.SplitAfter(s, "=")`. -/
def goSplitAfterEq (s : String) : List String :=
  (splitAfterChAux '=' s.data []).map String.mk

/-- Go `strings.ToLower` (all characters appearing in btrfs size suffixes
are ASCII, where `Char.toLower` agrees with Go's Unicode lowering). -/
def goToLower (s : String) : String :=
  String.mk (s.data.map Char.toLower)

/-- The error taxonomy of src/btrfs/volumes.go: one constructor per
`fmt.Errorf` site, plus `indexOutOfRange` for a Go runtime panic from an
out-of-range slice index. -/
inductive Err where
  /-- Runtime panic: slice index out of range (not a returned error). -/
  | indexOutOfRange : Err
  /-- humanize.ParseBytes: the numeric prefix fails strconv.ParseFloat. -/
  | sizeSyntax (s : String) : Err
  /-- humanize.ParseBytes: "unhandled size name" (unknown unit suffix). -/
  | unhandledSizeName (s : String) : Err
  /-- parseDF: "insufficient output" (fewer than 3 lines). -/
  | dfInsufficient (lines : List String) : Err
  /-- parseDF: "Unknown fields" (bad class keyword or field count). -/
  | dfUnknownFields (line : String) : Err
  /-- parseDF: "expected total field". -/
  | dfExpectedTotal (line : String) : Err
  /-- parseDF: "expected used field". -/
  | dfExpectedUsed (line : String) : Err
  /-- DFData.UsedTotal: "Unknown level". -/
  | unknownLevel (level : String) : Err
  /-- parseSubvolumes: "unexpected output in line". -/
  | svUnexpectedLine (line : String) : Err
  /-- readSubvolume: "error parsing timestatmp" (Creation time line). -/
  | svTime (line : String) : Err
  /-- readSubvolume: "error parsing timestatmp" (Generation line). -/
  | svGen (line : String) : Err
  /-- readSubvolume: "error parsing Generation" (Gen at creation line). -/
  | svGenAtCreation (line : String) : Err
  /-- readSubvolume: "error parsing Parent". -/
  | svParent (line : String) : Err
  /-- readSubvolume: "error parsing Top". -/
  | svTopLevel (line : String) : Err
  /-- parseFSShow: "unexpected output, check permissions" (< 2 lines). -/
  | fsShowShort (lines : List String) : Err
  /-- parseFSShow: "expected label and uuid". -/
  | fsShowLabel (line : String) : Err
  /-- parseFSShow: "unexpected fields for FS info". -/
  | fsShowLabelFields (line : String) : Err
  /-- parseFSShow: "expected btrfs version". -/
  | fsShowVersion (line : String) : Err
  /-- parseFSShow: "unexpected fields for version output". -/
  | fsShowVersionFields (line : String) : Err
  /-- parseFSShow: "Expected Total Device content". -/
  | fsShowTotalLine (line : String) : Err
  /-- parseFSShow: "unexpected fields for total device line". -/
  | fsShowTotalFields (line : String) : Err
  /-- strconv.ParseUint failure (error returned unwrapped). -/
  | uintSyntax (s : String) : Err
  /-- parseFSShow: "expected btrfs device content". -/
  | fsShowDevice (line : String) : Err
  /-- parseFSShow: "unexpected fields for device line". -/
  | fsShowDeviceFields (line : String) : Err
  /-- parseFSShow: "error parsing device size" wrapping an inner error. -/
  | devSize (e : Err) : Err
  /-- parseFSShow: "error parsing device used bytes" wrapping an inner
  error. -/
  | devUsed (e : Err) : Err
  /-- GetFileSystem: "path cannot be empty". -/
  | emptyPath : Err
  /-- Acquisition failure: the external btrfs command produced stderr
  output or failed ("Error reading btrfs ..."). -/
  | cmdFailed (context : String) : Err
  deriving DecidableEq, Repr

/-- Go slice indexing `l[i]`: out-of-range access is a runtime panic,
modelled as `Err.indexOutOfRange`. -/
def idx {α : Type} (l : List α) (i : Nat) : Except Err α :=
  match l.get? i with
  | some a => .ok a
  | none => .error .indexOutOfRange

/-- Digit run to number, most significant first. -/
def digitsVal : List Char → Nat → Nat
  | [], acc => acc
  | c :: rest, acc => digitsVal rest (acc * 10 + (c.toNat - '0'.toNat))

/-- Exact model of `strconv.ParseFloat` on the digit-and-dot strings that
humanize.ParseBytes extracts: the value is returned as a pair `(n, d)`
denoting `n / 10^d`.  humanize then multiplies by a power-of-two or
power-of-ten unit in float64 and truncates to uint64; for every size
literal evaluated in this development the correctly rounded float64
computation truncates to the same integer as this exact decimal
arithmetic, so the decoder is modelled exactly. -/
def parseDecimal (cs : List Char) : Option (Nat × Nat) :=
  let intPart := cs.takeWhile (· ≠ '.')
  let rest := cs.dropWhile (· ≠ '.')
  if intPart.all Char.isDigit then
    match rest with
    | [] =>
      if intPart.isEmpty then none else some (digitsVal intPart 0, 0)
    | _ :: fracPart =>
      if fracPart.all Char.isDigit ∧ fracPart.all (· ≠ '.') ∧
          ¬(intPart.isEmpty ∧ fracPart.isEmpty) then
        some (digitsVal intPart 0 * 10 ^ fracPart.length +
          digitsVal fracPart 0, fracPart.length)
      else none
  else none

/-- The unit table of humanize.ParseBytes (`bytesSizeTable`), lower-case
keys; binary prefixes are powers of two, SI prefixes powers of ten. -/
def sizeTable : String → Option Nat
  | "b" => some 1
  | "kib" => some (2 ^ 10)
  | "kb" => some (10 ^ 3)
  | "mib" => some (2 ^ 20)
  | "mb" => some (10 ^ 6)
  | "gib" => some (2 ^ 30)
  | "gb" => some (10 ^ 9)
  | "tib" => some (2 ^ 40)
  | "tb" => some (10 ^ 12)
  | "pib" => some (2 ^ 50)
  | "pb" => some (10 ^ 15)
  | "eib" => some (2 ^ 60)
  | "eb" => some (10 ^ 18)
  | "" => some 1
  | "ki" => some (2 ^ 10)
  | "k" => some (10 ^ 3)
  | "mi" => some (2 ^ 20)
  | "m" => some (10 ^ 6)
  | "gi" => some (2 ^ 30)
  | "g" => some (10 ^ 9)
  | "ti" => some (2 ^ 40)
  | "t" => some (10 ^ 12)
  | "pi" => some (2 ^ 50)
  | "p" => some (10 ^ 15)
  | "ei" => some (2 ^ 60)
  | "e" => some (10 ^ 18)
  | _ => none

/-- Scanner prefix of humanize.ParseBytes: the longest leading run of
decimal digits, dots and commas. -/
def sizeNumScan (c : Char) : Bool := c.isDigit || c = '.' || c = ','

/-- parseSize (src/btrfs/volumes.go:400-402), i.e. humanize.ParseBytes:
split the literal into a numeric prefix and a unit suffix, strip commas
from the number, parse it as a decimal, look the lower-cased trimmed
suffix up in the unit table and truncate the product to an integer byte
count. -/
def parseSize (s : String) : Except Err Nat :=
  let num := s.data.takeWhile sizeNumScan
  let restCs := s.data.dropWhile sizeNumScan
  let numClean := num.filter (· ≠ ',')
  match parseDecimal numClean with
  | none => .error (.sizeSyntax s)
  | some (n, d) =>
    let extra := goToLower (goTrimSpace (String.mk restCs))
    match sizeTable extra with
    | some m => .ok (n * m / 10 ^ d)
    | none => .error (.unhandledSizeName s)

/-- Model of `strconv.ParseUint(s, 10, 64)`: no sign, decimal digits
only, value must fit in 64 bits. -/
def parseUint10x64 (s : String) : Except Err Nat :=
  if s.data ≠ [] ∧ s.data.all Char.isDigit then
    let v := digitsVal s.data 0
    if v < 2 ^ 64 then .ok v else .error (.uintSyntax s)
  else .error (.uintSyntax s)

/-- Model of `strconv.ParseUint(s, 0, 32)` (base auto-detection): an
optional `0x`/`0X`, `0o`/`0O`, `0b`/`0B` prefix selects the base, a bare
leading zero selects octal, otherwise decimal; the value must fit in 32
bits.  (Go additionally allows digit-grouping underscores with base 0;
no input in this development contains one.) -/
def parseUint0x32 (s : String) : Except Err Nat :=
  let base_digits : Nat × List Char :=
    match s.data with
    | '0' :: 'x' :: rest => (16, rest)
    | '0' :: 'X' :: rest => (16, rest)
    | '0' :: 'o' :: rest => (8, rest)
    | '0' :: 'O' :: rest => (8, rest)
    | '0' :: 'b' :: rest => (2, rest)
    | '0' :: 'B' :: rest => (2, rest)
    | '0' :: c :: rest => (8, c :: rest)
    | other => (10, other)
  let base := base_digits.1
  let ds := base_digits.2
  let digVal : Char → Nat := fun c =>
    if c.isDigit then c.toNat - '0'.toNat
    else if 'a' ≤ c ∧ c ≤ 'z' then c.toNat - 'a'.toNat + 10
    else if 'A' ≤ c ∧ c ≤ 'Z' then c.toNat - 'A'.toNat + 10
    else 99
  if s.data = [] then .error (.uintSyntax s)
  else if s.data = ['0'] then .ok 0
  else if ds ≠ [] ∧ ds.all (fun c => digVal c < base) then
    let v := ds.foldl (fun acc c => acc * base + digVal c) 0
    if v < 2 ^ 32 then .ok v else .error (.uintSyntax s)
  else .error (.uintSyntax s)

/-- A parsed wall-clock instant (the components Go `time.Time` carries
that this program can ever populate). -/
structure TimeStamp where
  year : Nat
  month : Nat
  day : Nat
  hour : Nat
  minute : Nat
  second : Nat
  deriving DecidableEq, Repr

/-- The Go zero `time.Time`: January 1 of year 1, 00:00:00. -/
def zeroTime : TimeStamp := ⟨1, 1, 1, 0, 0, 0⟩

/-- Layout chunks recognised by Go `time.Parse`, restricted to those
occurring in the layout string `"2005-01-2 03:04:05"` used by the
source.  Go's layout scanner (`nextStdChunk`) decomposes that string as:
day `"2"`, literal `"0"`, seconds `"05"`, literal `"-"`, month `"01"`,
literal `"-"`, day `"2"`, literal `" "`, 12-hour hour `"03"`, literal
`":"`, minute `"04"`, literal `":"`, seconds `"05"` — the `"2005"` is
not the reference year `"2006"`, so its `2` becomes a day-of-month
chunk and the rest decays into literals and misplaced two-digit
chunks. -/
inductive LChunk where
  | litC (c : Char) : LChunk
  | day1or2 : LChunk
  | month2 : LChunk
  | hour12x2 : LChunk
  | minute2 : LChunk
  | second2 : LChunk
  deriving DecidableEq, Repr

/-- The chunk decomposition of the layout `"2005-01-2 03:04:05"`. -/
def layout2005 : List LChunk :=
  [.day1or2, .litC '0', .second2, .litC '-', .month2, .litC '-', .day1or2,
   .litC ' ', .hour12x2, .litC ':', .minute2, .litC ':', .second2]

/-- Two-digit fixed-width number (Go `getnum` with `fixed = true`). -/
def getnum2 : List Char → Option (Nat × List Char)
  | a :: b :: rest =>
    if a.isDigit && b.isDigit then
      some ((a.toNat - '0'.toNat) * 10 + (b.toNat - '0'.toNat), rest)
    else none
  | _ => none

/-- One- or two-digit number (Go `getnum` with `fixed = false`). -/
def getnum1or2 : List Char → Option (Nat × List Char)
  | [] => none
  | a :: rest =>
    if a.isDigit then
      match rest with
      | b :: rest2 =>
        if b.isDigit then
          some ((a.toNat - '0'.toNat) * 10 + (b.toNat - '0'.toNat), rest2)
        else some (a.toNat - '0'.toNat, rest)
      | [] => some (a.toNat - '0'.toNat, [])
    else none

/-- Chunk-by-chunk matcher of Go `time.Parse` for the fixed layout:
consumes the value string against the chunk list, every literal must
match exactly and the value must be fully consumed. -/
def runChunks : List LChunk → List Char → TimeStamp → Option TimeStamp
  | [], [], t => some t
  | [], _ :: _, _ => none
  | .litC c :: ks, v, t =>
    match v with
    | c' :: rest => if c' = c then runChunks ks rest t else none
    | [] => none
  | .day1or2 :: ks, v, t =>
    match getnum1or2 v with
    | some (n, rest) => runChunks ks rest { t with day := n }
    | none => none
  | .month2 :: ks, v, t =>
    match getnum2 v with
    | some (n, rest) => runChunks ks rest { t with month := n }
    | none => none
  | .hour12x2 :: ks, v, t =>
    match getnum2 v with
    | some (n, rest) => runChunks ks rest { t with hour := n }
    | none => none
  | .minute2 :: ks, v, t =>
    match getnum2 v with
    | some (n, rest) => runChunks ks rest { t with minute := n }
    | none => none
  | .second2 :: ks, v, t =>
    match getnum2 v with
    | some (n, rest) => runChunks ks rest { t with second := n }
    | none => none

/-- Days in a month, Gregorian rules, as Go's date validation uses. -/
def daysIn (month year : Nat) : Nat :=
  if month = 2 then
    if year % 4 = 0 ∧ (year % 100 ≠ 0 ∨ year % 400 = 0) then 29 else 28
  else if month = 4 ∨ month = 6 ∨ month = 9 ∨ month = 11 then 30
  else 31

/-- Go `time.Parse("2005-01-2 03:04:05", s)`: match the chunk sequence,
then validate the assembled date and clock (the layout contains no year
chunk, so the year stays 0, and no AM/PM marker, so the 12-hour value is
taken as the hour). -/
def goTimeParse2005 (s : String) : Option TimeStamp :=
  match runChunks layout2005 s.data { zeroTime with year := 0 } with
  | none => none
  | some t =>
    if 1 ≤ t.month ∧ t.month ≤ 12 ∧ 1 ≤ t.day ∧ t.day ≤ daysIn t.month t.year ∧
        t.hour < 24 ∧ t.minute < 60 ∧ t.second < 60 then
      some t
    else none

/-- One block-device member of the filesystem (struct `Device`). -/
structure Device where
  devID : String
  size : Nat
  used : Nat
  path : String
  deriving DecidableEq, Repr

/-- One allocation-class line of the space-usage report (struct
`DFData`). -/
structure DFData where
  dataType : String
  level : String
  total : Nat
  used : Nat
  deriving DecidableEq, Repr

/-- One subvolume record (struct `Subvolume`).  Go zero values: empty
strings, zero counters, the zero time. -/
structure Subvolume where
  name : String := ""
  uuid : String := ""
  parentUUID : String := ""
  creationTime : TimeStamp := zeroTime
  id : String := ""
  gen : Nat := 0
  genAtCreation : Nat := 0
  parent : Nat := 0
  topLevel : Nat := 0
  path : String := ""
  deriving DecidableEq, Repr

/-- The filesystem aggregate (struct `FileSystem`). -/
structure FileSystem where
  label : String
  uuid : String
  totalDevices : Nat
  usedBytes : Nat
  version : String
  devices : List Device
  subvolumes : List Subvolume
  dfData : List DFData
  deriving DecidableEq, Repr

/-- The per-line loop body sequence of parseDF
(src/btrfs/volumes.go:241-273), processing lines in order and stopping
at the first failure.  Notes on the source text, which does not compile
as written: the struct literal at line 269 reads `Level:[1]`, modelled
as the evident `Level: fields[1]`; lines 252 and 261 assign the
`[]string` result of `strings.SplitAfter(x, "=")` back to a `string`
variable that is then passed to parseSize, modelled as taking element 1
of the split, the text following the first `=`. -/
def parseDFLines : List String → Except Err (List DFData)
  | [] => .ok []
  | l :: rest =>
    let line := goTrimSpace l
    let fields := goFields line
    match idx fields 0 with
    | .error e => .error e
    | .ok f0 =>
      if f0 = "Data" ∨ f0 = "System" ∨ f0 = "Metadata" ∨
          f0 = "GlobalReserve" then
        if fields.length ≠ 4 then .error (.dfUnknownFields line)
        else
          match idx fields 2 with
          | .error e => .error e
          | .ok total =>
            if goStartsWith total "total=" then
              match idx (goSplitAfterEq total) 1 with
              | .error e => .error e
              | .ok totalStr =>
                match parseSize totalStr with
                | .error e => .error e
                | .ok totalBytes =>
                  match idx fields 3 with
                  | .error e => .error e
                  | .ok used =>
                    if goStartsWith used "used=" then
                      match idx (goSplitAfterEq used) 1 with
                      | .error e => .error e
                      | .ok usedStr =>
                        match parseSize usedStr with
                        | .error e => .error e
                        | .ok usedBytes =>
                          match idx fields 1 with
                          | .error e => .error e
                          | .ok f1 =>
                            match parseDFLines rest with
                            | .error e => .error e
                            | .ok dfRest =>
                              .ok (⟨f0, f1, totalBytes, usedBytes⟩ :: dfRest)
                    else .error (.dfExpectedUsed line)
            else .error (.dfExpectedTotal line)
      else .error (.dfUnknownFields line)

/-- parseDF (src/btrfs/volumes.go:227-275): reject fewer than 3 lines as
insufficient output, then parse every line. -/
def parseDF (lines : List String) : Except Err (List DFData) :=
  if lines.length < 3 then .error (.dfInsufficient lines)
  else parseDFLines lines

/-- DFData.UsedTotal (src/btrfs/volumes.go:461-471): RAID-aware
accounted usage.  `single` passes the raw used bytes through, `dup` and
`raid-1` double them (a uint64 multiplication, hence modulo `2^64`),
anything else is an unknown-level error. -/
def DFData.usedTotal (df : DFData) : Except Err Nat :=
  if df.level = "single" then .ok df.used
  else if df.level = "dup" ∨ df.level = "raid-1" then
    .ok (df.used * 2 % 2 ^ 64)
  else .error (.unknownLevel df.level)

/-- FileSystem.TotalBytes (src/btrfs/volumes.go:404-411): uint64 sum of
device sizes. -/
def FileSystem.totalBytes (fs : FileSystem) : Nat :=
  fs.devices.foldl (fun acc d => (acc + d.size) % 2 ^ 64) 0

/-- FileSystem.AllocatedBytes (src/btrfs/volumes.go:413-420): uint64 sum
of device used values. -/
def FileSystem.allocatedBytes (fs : FileSystem) : Nat :=
  fs.devices.foldl (fun acc d => (acc + d.used) % 2 ^ 64) 0

/-- The loop of FileSystem.GetUsedBytes (src/btrfs/volumes.go:422-433):
accumulate accounted usage, propagating the first failure. -/
def getUsedBytesLoop : List DFData → Nat → Except Err Nat
  | [], total => .ok total
  | d :: rest, total =>
    match d.usedTotal with
    | .error e => .error e
    | .ok used => getUsedBytesLoop rest ((total + used) % 2 ^ 64)

/-- FileSystem.GetUsedBytes (src/btrfs/volumes.go:422-433). -/
def FileSystem.getUsedBytes (fs : FileSystem) : Except Err Nat :=
  getUsedBytesLoop fs.dfData 0

/-- FileSystem.Subvolumes accessor (src/btrfs/volumes.go:443-445). -/
def FileSystem.subvolumesOf (fs : FileSystem) : List Subvolume :=
  fs.subvolumes

/-- Mutable locals of the parseFSShow loop. -/
structure FSAcc where
  version : String := ""
  label : String := ""
  uuid : String := ""
  totalDevices : Nat := 0
  usedBytes : Nat := 0
  devices : List Device := []
  deriving DecidableEq, Repr

/-- One iteration of the parseFSShow loop (src/btrfs/volumes.go:325-383)
for the line at position `lineNum` of `lineCount` lines.  The Go switch
arms are tried in source order 0, lineCount-1, 1, default, so on a
two-line input the second line is treated as the version line and the
device-count branch never runs. -/
def fsShowLine (lineCount lineNum : Nat) (rawLine : String) (acc : FSAcc) :
    Except Err FSAcc :=
  let line := goTrimSpace rawLine
  let fields := goFields line
  if lineNum = 0 then
    match idx fields 0 with
    | .error e => .error e
    | .ok f0 =>
      if f0 ≠ "Label:" then .error (.fsShowLabel line)
      else if fields.length ≠ 4 then .error (.fsShowLabelFields line)
      else
        match idx fields 1, idx fields 3 with
        | .ok f1, .ok f3 => .ok { acc with label := f1, uuid := f3 }
        | .error e, _ => .error e
        | _, .error e => .error e
  else if lineNum = lineCount - 1 then
    match idx fields 0 with
    | .error e => .error e
    | .ok f0 =>
      if f0 ≠ "Btrfs" then .error (.fsShowVersion line)
      else if fields.length ≠ 2 then .error (.fsShowVersionFields line)
      else
        match idx fields 1 with
        | .error e => .error e
        | .ok f1 => .ok { acc with version := f1 }
  else if lineNum = 1 then
    match idx fields 0 with
    | .error e => .error e
    | .ok f0 =>
      -- Short-circuit of `fields[0] != "Total" && fields[1] != "devices"`:
      -- fields[1] is only read (and can only panic) when f0 is not "Total".
      let second : Except Err Bool :=
        if f0 ≠ "Total" then
          match idx fields 1 with
          | .error e => .error e
          | .ok f1 => .ok (f1 ≠ "devices")
        else .ok false
      match second with
      | .error e => .error e
      | .ok badKeyword =>
        if badKeyword then .error (.fsShowTotalLine line)
        else if fields.length ≠ 7 then .error (.fsShowTotalFields line)
        else
          match idx fields 2 with
          | .error e => .error e
          | .ok f2 =>
            match parseUint10x64 f2 with
            | .error e => .error e
            | .ok n =>
              match idx fields 6 with
              | .error e => .error e
              | .ok f6 =>
                match parseSize f6 with
                | .error e => .error e
                | .ok ub => .ok { acc with totalDevices := n, usedBytes := ub }
  else
    if fields.length = 0 then .ok acc
    else
      match idx fields 0 with
      | .error e => .error e
      | .ok f0 =>
        if f0 ≠ "devid" then .error (.fsShowDevice line)
        else if fields.length ≠ 8 then .error (.fsShowDeviceFields line)
        else
          match idx fields 3 with
          | .error e => .error e
          | .ok f3 =>
            match parseSize f3 with
            | .error e => .error (.devSize e)
            | .ok size =>
              match idx fields 5 with
              | .error e => .error e
              | .ok f5 =>
                match parseSize f5 with
                | .error e => .error (.devUsed e)
                | .ok used =>
                  match idx fields 1, idx fields 7 with
                  | .ok f1, .ok f7 =>
                    .ok { acc with
                      devices := acc.devices ++ [⟨f1, size, used, f7⟩] }
                  | .error e, _ => .error e
                  | _, .error e => .error e

/-- Fold of `fsShowLine` over the numbered lines. -/
def fsShowLoop (lineCount : Nat) : Nat → List String → FSAcc →
    Except Err FSAcc
  | _, [], acc => .ok acc
  | lineNum, l :: rest, acc =>
    match fsShowLine lineCount lineNum l acc with
    | .error e => .error e
    | .ok acc2 => fsShowLoop lineCount (lineNum + 1) rest acc2

/-- parseFSShow (src/btrfs/volumes.go:307-398): reject fewer than 2
lines, run the positional line loop, then assemble the FileSystem with
empty subvolume and df collections. -/
def parseFSShow (lines : List String) : Except Err FileSystem :=
  if lines.length < 2 then .error (.fsShowShort lines)
  else
    match fsShowLoop lines.length 0 lines {} with
    | .error e => .error e
    | .ok acc =>
      .ok { label := acc.label, uuid := acc.uuid,
            totalDevices := acc.totalDevices, usedBytes := acc.usedBytes,
            version := acc.version, devices := acc.devices,
            subvolumes := [], dfData := [] }

/-- The keyword dispatch of readSubvolume's line loop
(src/btrfs/volumes.go:185-222) for one line after the skipped first
line.  Source notes: the error branches `return fmt.Errorf(...)` supply
one value where two are expected, modelled as the evident
`return nil, fmt.Errorf(...)`; first fields are matched in the source's
switch order, and an unrecognized keyword falls through the switch and
is skipped. -/
def svLineStep (sv : Subvolume) (rawLine : String) : Except Err Subvolume :=
  let line := goTrimSpace rawLine
  let fields := goFields line
  match idx fields 0 with
  | .error e => .error e
  | .ok f0 =>
    if f0 = "Name:" then
      match idx fields 1 with
      | .error e => .error e
      | .ok f1 => .ok { sv with name := f1 }
    else if f0 = "uuid:" then
      match idx fields 1 with
      | .error e => .error e
      | .ok f1 => .ok { sv with uuid := f1 }
    else if f0 = "Parent" then
      match idx fields 2 with
      | .error e => .error e
      | .ok f2 => .ok { sv with parentUUID := f2 }
    else if f0 = "Creation" then
      match idx fields 2 with
      | .error e => .error e
      | .ok f2 =>
        match goTimeParse2005 f2 with
        | none => .error (.svTime line)
        | some t => .ok { sv with creationTime := t }
    else if f0 = "Object" then
      match idx fields 2 with
      | .error e => .error e
      | .ok f2 => .ok { sv with id := f2 }
    else if f0 = "Generation" then
      match idx fields 2 with
      | .error e => .error e
      | .ok f2 =>
        match parseUint0x32 f2 with
        | .error _ => .error (.svGen line)
        | .ok n => .ok { sv with gen := n }
    else if f0 = "Gen" then
      match idx fields 3 with
      | .error e => .error e
      | .ok f3 =>
        match parseUint0x32 f3 with
        | .error _ => .error (.svGenAtCreation line)
        | .ok n => .ok { sv with genAtCreation := n }
    else if f0 = "Parent:" then
      match idx fields 1 with
      | .error e => .error e
      | .ok f1 =>
        match parseUint0x32 f1 with
        | .error _ => .error (.svParent line)
        | .ok n => .ok { sv with parent := n }
    else if f0 = "Top" then
      match idx fields 2 with
      | .error e => .error e
      | .ok f2 =>
        match parseUint0x32 f2 with
        | .error _ => .error (.svTopLevel line)
        | .ok n => .ok { sv with topLevel := n }
    else .ok sv

/-- The line loop of readSubvolume over the captured detail-report
lines, skipping line 0. -/
def svLinesLoop : Nat → List String → Subvolume → Except Err Subvolume
  | _, [], sv => .ok sv
  | lineNum, l :: rest, sv =>
    if lineNum = 0 then svLinesLoop (lineNum + 1) rest sv
    else
      match svLineStep sv l with
      | .error e => .error e
      | .ok sv2 => svLinesLoop (lineNum + 1) rest sv2

/-- The parsing part of readSubvolume (src/btrfs/volumes.go:184-223),
applied to the stdout lines of `btrfs subvolume show`. -/
def readSubvolumeLines (svLines : List String) : Except Err Subvolume :=
  svLinesLoop 0 svLines {}

/-- parseSubvolumes (src/btrfs/volumes.go:123-145), with the effectful
`readSubvolume rootPath svpath` call abstracted as `readSv svpath`:
every line must have exactly 9 whitespace-separated fields, the ninth
field is the subvolume path handed to the detail reader, and the first
violation aborts the parse. -/
def parseSubvolumes (readSv : String → Except Err Subvolume) :
    List String → Except Err (List Subvolume)
  | [] => .ok []
  | l :: rest =>
    let line := goTrimSpace l
    let fields := goFields line
    if fields.length ≠ 9 then .error (.svUnexpectedLine line)
    else
      match idx fields 8 with
      | .error e => .error e
      | .ok svpath =>
        match readSv svpath with
        | .error e => .error e
        | .ok sv =>
          match parseSubvolumes readSv rest with
          | .error e => .error e
          | .ok svs => .ok (sv :: svs)

/-- Captured output of one external btrfs invocation: the stdout and
stderr line sequences. -/
structure CmdOutput where
  out : List String
  err : List String
  deriving DecidableEq, Repr

/-- readFileSystem (src/btrfs/volumes.go:278-305) applied to the
captured output of `btrfs fi show`: any stderr output is an acquisition
failure, otherwise the stdout lines are parsed. -/
def readFileSystemOut (showRes : CmdOutput) : Except Err FileSystem :=
  if showRes.err ≠ [] then .error (.cmdFailed "btrfs fi show")
  else parseFSShow showRes.out

/-- readDfData (src/btrfs/volumes.go:95-121) applied to the captured
output of `btrfs fi df`. -/
def readDfDataOut (dfRes : CmdOutput) : Except Err (List DFData) :=
  if dfRes.err ≠ [] then .error (.cmdFailed "btrfs fi df")
  else parseDF dfRes.out

/-- GetFileSystem (src/btrfs/volumes.go:37-63) with the three external
invocations replaced by their captured results: an empty path is
rejected, the show report is parsed into the aggregate, the df report is
parsed and stored, and the `btrfs subvolume list` output (`none` when
the command failed) is only printed — it is never parsed and the
aggregate's subvolume collection is never touched. -/
def getFileSystem (path : String) (showRes dfRes : CmdOutput)
    (svListRes : Option (List String)) : Except Err FileSystem :=
  if goTrimSpace path = "" then .error .emptyPath
  else
    match readFileSystemOut showRes with
    | .error e => .error e
    | .ok fs =>
      match readDfDataOut dfRes with
      | .error e => .error e
      | .ok dfData =>
        match svListRes with
        | none => .error (.cmdFailed "btrfs subvolume list")
        | some _ => .ok { fs with dfData := dfData }

/-- Accounted usage of each record in order, stopping at the first
unknown level: the list that GetUsedBytes sums. -/
def accUsedList : List DFData → Except Err (List Nat)
  | [] => .ok []
  | d :: rest =>
    match d.usedTotal with
    | .error e => .error e
    | .ok u =>
      match accUsedList rest with
      | .error e => .error e
      | .ok us => .ok (u :: us)

/-- The trailing (ninth) whitespace-separated field of a trimmed
subvolume-list line. -/
def ninthField (l : String) : String :=
  (goFields (goTrimSpace l)).getD 8 ""

/-- A detail-report line on which `svLineStep` provably performs no
out-of-range field access: it has at least one field, and when its first
field is one of the recognized keywords it carries every field that the
corresponding switch arm reads. -/
def svLineSafe (l : String) : Prop :=
  goFields (goTrimSpace l) ≠ [] ∧
  ((goFields (goTrimSpace l)).getD 0 "" = "Name:" →
    2 ≤ (goFields (goTrimSpace l)).length) ∧
  ((goFields (goTrimSpace l)).getD 0 "" = "uuid:" →
    2 ≤ (goFields (goTrimSpace l)).length) ∧
  ((goFields (goTrimSpace l)).getD 0 "" = "Parent" →
    3 ≤ (goFields (goTrimSpace l)).length) ∧
  ((goFields (goTrimSpace l)).getD 0 "" = "Creation" →
    3 ≤ (goFields (goTrimSpace l)).length) ∧
  ((goFields (goTrimSpace l)).getD 0 "" = "Object" →
    3 ≤ (goFields (goTrimSpace l)).length) ∧
  ((goFields (goTrimSpace l)).getD 0 "" = "Generation" →
    3 ≤ (goFields (goTrimSpace l)).length) ∧
  ((goFields (goTrimSpace l)).getD 0 "" = "Gen" →
    4 ≤ (goFields (goTrimSpace l)).length) ∧
  ((goFields (goTrimSpace l)).getD 0 "" = "Parent:" →
    2 ≤ (goFields (goTrimSpace l)).length) ∧
  ((goFields (goTrimSpace l)).getD 0 "" = "Top" →
    3 ≤ (goFields (goTrimSpace l)).length)

instance (l : String) : Decidable (svLineSafe l) := by
  unfold svLineSafe; infer_instance

/-- Decidable equality of `Except` results, for evaluating the parsers
on concrete report lines. -/
instance {ε α : Type} [DecidableEq ε] [DecidableEq α] :
    DecidableEq (Except ε α)
  | .ok a, .ok b =>
    if h : a = b then .isTrue (h ▸ rfl)
    else .isFalse (fun hh => h (Except.ok.inj hh))
  | .error a, .error b =>
    if h : a = b then .isTrue (h ▸ rfl)
    else .isFalse (fun hh => h (Except.error.inj hh))
  | .ok _, .error _ => .isFalse Except.noConfusion
  | .error _, .ok _ => .isFalse Except.noConfusion

/-- What the subvolume-list parser does to well-formed input: feed the
trailing (ninth) field of every line, in order, to the per-subvolume
detail reader, stopping at the first failure. -/
def readAllNinth (readSv : String → Except Err Subvolume) :
    List String → Except Err (List Subvolume)
  | [] => .ok []
  | l :: rest =>
    match readSv (ninthField l) with
    | .error e => .error e
    | .ok sv =>
      match readAllNinth readSv rest with
      | .error e => .error e
      | .ok svs => .ok (sv :: svs)

theorem foldl_add_mod (l : List Nat) :
    ∀ a : Nat, l.foldl (fun x y => (x + y) % 2 ^ 64) (a % 2 ^ 64) =
      (a + l.sum) % 2 ^ 64 := by
  induction l with
  | nil => intro a; simp
  | cons x xs ih =>
    intro a
    simp only [List.foldl_cons, List.sum_cons]
    rw [Nat.mod_add_mod, ih (a + x), Nat.add_assoc]

theorem foldl_add_mod_zero (l : List Nat) :
    l.foldl (fun x y => (x + y) % 2 ^ 64) 0 = l.sum % 2 ^ 64 := by
  have h := foldl_add_mod l 0
  simpa using h

/-- C1: the space-usage parser applied to the very output format
documented in the source's own comment block (lines 229-233 of
volumes.go).  The claim says the first line parses to a record with
class "Data" and level "single"; the code instead rejects it, because
`strings.Fields` keeps the separating comma attached to the class token
("Data," does not match the switch case "Data"), so parseDF returns the
"Unknown fields" error on the first line. -/
theorem parseDF_rejects_documented_output :
    parseDF ["Data, single: total=9.00GiB, used=8.67GiB",
      "System, DUP: total=32.00MiB, used=16.00KiB",
      "Metadata, DUP: total=1.00GiB, used=466.88MiB"] =
    .error (.dfUnknownFields "Data, single: total=9.00GiB, used=8.67GiB") :=
  rfl

/-- C2 counterexample: accounted usage is not always raw used bytes × 2
for level "dup" — the uint64 multiplication wraps.  At used = 2^63 the
code returns 0, not 2^64. -/
theorem usedTotal_not_exact_double :
    DFData.usedTotal ⟨"Data", "dup", 0, 2 ^ 63⟩ ≠ .ok (2 ^ 63 * 2) := by
  decide

/-- C2 (amended): accounted usage equals raw used bytes for level
"single", raw used bytes × 2 reduced modulo 2^64 for "dup" and
"raid-1", and the unknown-level error for every other level string. -/
theorem usedTotal_level_cases : ∀ df : DFData,
    (df.level = "single" → df.usedTotal = .ok df.used) ∧
    (df.level = "dup" ∨ df.level = "raid-1" →
      df.usedTotal = .ok (df.used * 2 % 2 ^ 64)) ∧
    (df.level ≠ "single" → df.level ≠ "dup" → df.level ≠ "raid-1" →
      df.usedTotal = .error (.unknownLevel df.level)) := by
  intro df
  refine ⟨fun h => ?_, fun h => ?_, fun h1 h2 h3 => ?_⟩
  · simp [DFData.usedTotal, h]
  · rcases h with h | h <;> simp [DFData.usedTotal, h]
  · simp [DFData.usedTotal, h1, h2, h3]

/-- C2 witness: the three branches of `usedTotal_level_cases` evaluated
at concrete records. -/
theorem usedTotal_level_cases_witness :
    DFData.usedTotal ⟨"Data", "single", 1, 7⟩ = .ok 7 ∧
    DFData.usedTotal ⟨"Data", "dup", 1, 7⟩ = .ok (7 * 2 % 2 ^ 64) ∧
    DFData.usedTotal ⟨"Data", "raid5", 1, 7⟩ =
      .error (.unknownLevel "raid5") :=
  ⟨(usedTotal_level_cases _).1 rfl,
   (usedTotal_level_cases _).2.1 (Or.inl rfl),
   (usedTotal_level_cases _).2.2 (by decide) (by decide) (by decide)⟩

theorem getUsedBytesLoop_ok :
    ∀ (l : List DFData) (us : List Nat) (t : Nat),
      accUsedList l = .ok us →
      getUsedBytesLoop l (t % 2 ^ 64) = .ok ((t + us.sum) % 2 ^ 64) := by
  intro l
  induction l with
  | nil =>
    intro us t h
    simp only [accUsedList, Except.ok.injEq] at h
    subst h
    simp [getUsedBytesLoop]
  | cons d rest ih =>
    intro us t h
    simp only [accUsedList] at h
    cases h1 : d.usedTotal with
    | error e => rw [h1] at h; cases h
    | ok u =>
      rw [h1] at h
      cases h2 : accUsedList rest with
      | error e => rw [h2] at h; cases h
      | ok us2 =>
        rw [h2] at h
        cases h
        simp only [getUsedBytesLoop, h1, Nat.mod_add_mod, List.sum_cons]
        rw [ih us2 (t + u) h2, Nat.add_assoc]

theorem getUsedBytesLoop_err :
    ∀ (l : List DFData) (t : Nat) (e : Err),
      accUsedList l = .error e → getUsedBytesLoop l t = .error e := by
  intro l
  induction l with
  | nil => intro t e h; cases h
  | cons d rest ih =>
    intro t e h
    simp only [accUsedList] at h
    cases h1 : d.usedTotal with
    | error e2 =>
      rw [h1] at h
      cases h
      simp [getUsedBytesLoop, h1]
    | ok u =>
      rw [h1] at h
      cases h2 : accUsedList rest with
      | error e2 =>
        rw [h2] at h
        cases h
        simp only [getUsedBytesLoop, h1]
        exact ih _ e h2
      | ok us => rw [h2] at h; cases h

theorem getUsedBytesLoop_err_of_mem :
    ∀ (l : List DFData) (t : Nat),
      (∃ d ∈ l, ∃ e, d.usedTotal = .error e) →
      ∃ e, getUsedBytesLoop l t = .error e := by
  intro l
  induction l with
  | nil => intro t h; rcases h with ⟨d, hd, _⟩; cases hd
  | cons d rest ih =>
    intro t h
    rcases h with ⟨d0, hd0, e0, he0⟩
    rcases List.mem_cons.mp hd0 with h | h
    · subst h
      exact ⟨e0, by simp [getUsedBytesLoop, he0]⟩
    · cases h1 : d.usedTotal with
      | error e2 => exact ⟨e2, by simp [getUsedBytesLoop, h1]⟩
      | ok u =>
        rcases ih ((t + u) % 2 ^ 64) ⟨d0, h, e0, he0⟩ with ⟨e, he⟩
        exact ⟨e, by simp only [getUsedBytesLoop, h1]; exact he⟩

/-- C3 counterexample: the aggregate used-bytes metric does not equal
the exact sum of accounted usages — with two "single" records of
2^63 used bytes each, the uint64 accumulation wraps to 0 instead of
2^64. -/
theorem getUsedBytes_overflow_wraps :
    FileSystem.getUsedBytes ⟨"", "", 0, 0, "", [], [],
      [⟨"Data", "single", 0, 2 ^ 63⟩, ⟨"Data", "single", 0, 2 ^ 63⟩]⟩ ≠
    .ok (2 ^ 63 + 2 ^ 63) := by
  decide

/-- C3 (amended): when every record's level is recognized, GetUsedBytes
returns the sum of the per-record accounted usages reduced modulo 2^64
(equal to the exact sum whenever it fits in 64 bits); the first
unknown-level error propagates, and in particular the computation fails
(no partial sum is returned) whenever any record's level is
unrecognized. -/
theorem getUsedBytes_sum_spec : ∀ fs : FileSystem,
    (∀ us : List Nat, accUsedList fs.dfData = .ok us →
      fs.getUsedBytes = .ok (us.sum % 2 ^ 64)) ∧
    (∀ e : Err, accUsedList fs.dfData = .error e →
      fs.getUsedBytes = .error e) ∧
    ((∃ d ∈ fs.dfData, ∃ e, d.usedTotal = .error e) →
      ∃ e, fs.getUsedBytes = .error e) := by
  intro fs
  refine ⟨fun us h => ?_, fun e h => ?_, fun h => ?_⟩
  · have h2 := getUsedBytesLoop_ok fs.dfData us 0 h
    simpa [FileSystem.getUsedBytes] using h2
  · exact getUsedBytesLoop_err fs.dfData 0 e h
  · exact getUsedBytesLoop_err_of_mem fs.dfData 0 h

/-- C3 witness: `getUsedBytes_sum_spec` at a two-record aggregate (3
single bytes plus 4 dup bytes accounted as 8) and at an aggregate with
an unrecognized level. -/
theorem getUsedBytes_sum_spec_witness :
    FileSystem.getUsedBytes ⟨"", "", 0, 0, "", [], [],
      [⟨"Data", "single", 0, 3⟩, ⟨"Metadata", "dup", 0, 4⟩]⟩ =
      .ok (([3, 8] : List Nat).sum % 2 ^ 64) ∧
    FileSystem.getUsedBytes ⟨"", "", 0, 0, "", [], [],
      [⟨"Data", "raid6", 0, 3⟩]⟩ = .error (.unknownLevel "raid6") :=
  ⟨(getUsedBytes_sum_spec _).1 [3, 8] (by decide),
   (getUsedBytes_sum_spec _).2.1 (.unknownLevel "raid6") (by decide)⟩

/-- C5: the documented four-line summary report parses to the expected
aggregate: label "none", UUID "abc-123", version "v3.12", device count
1, one device of size 42,949,672,960 bytes (40.00 GiB) whose used value
17,190,606,602 is the byte count of 16.01 GiB (the float64 product
16.01 × 2^30 truncated to an integer, matching exact decimal
arithmetic), and summary-level used bytes 15,751,792,558 (14.67
GiB). -/
theorem parseFSShow_scenario_ok :
    parseFSShow ["Label: none  uuid: abc-123",
      "Total devices 1 FS bytes used 14.67GiB",
      "devid 1 size 40.00GiB used 16.01GiB path /dev/sdc1",
      "Btrfs v3.12"] =
    .ok ⟨"none", "abc-123", 1, 15751792558, "v3.12",
      [⟨"1", 42949672960, 17190606602, "/dev/sdc1"⟩], [], []⟩ :=
  rfl

/-- C6 counterexample: the first input line "Label: none  uuid: X" has
four whitespace-separated fields, not three, so the summary parser does
not fail on it — a two-line report starting with it parses successfully
with label "none" and UUID "X". -/
theorem parseFSShow_label_X_accepted :
    parseFSShow ["Label: none  uuid: X", "Btrfs v3.12"] =
    .ok ⟨"none", "X", 0, 0, "v3.12", [], [], []⟩ :=
  rfl

/-- C6 (amended): the summary parser fails with the unexpected-fields
(UnexpectedFormat) error on a first line whose whitespace field count is
not 4, for example "Label: none uuid:X" with 3 fields, and fails with
the insufficient-output error for every input of fewer than 2 total
lines. -/
theorem parseFSShow_failure_modes :
    (∀ lines : List String, lines.length < 2 →
      parseFSShow lines = .error (.fsShowShort lines)) ∧
    parseFSShow ["Label: none uuid:X", "Btrfs v3.12"] =
      .error (.fsShowLabelFields "Label: none uuid:X") :=
  ⟨fun lines h => by simp [parseFSShow, h], rfl⟩

/-- C6 witness: `parseFSShow_failure_modes` at the one-line input
["x"]. -/
theorem parseFSShow_failure_modes_witness :
    parseFSShow ["x"] = .error (.fsShowShort ["x"]) :=
  parseFSShow_failure_modes.1 ["x"] (by decide)

/-- C7 counterexample: TotalBytes and AllocatedBytes are uint64 sums —
with two devices of size (and used) 2^63 each, both wrap to 0 instead
of the exact sum 2^64. -/
theorem totalBytes_not_exact_sum :
    FileSystem.totalBytes ⟨"", "", 0, 0, "",
      [⟨"1", 2 ^ 63, 2 ^ 63, "a"⟩, ⟨"2", 2 ^ 63, 2 ^ 63, "b"⟩], [], []⟩ ≠
      2 ^ 63 + 2 ^ 63 ∧
    FileSystem.allocatedBytes ⟨"", "", 0, 0, "",
      [⟨"1", 2 ^ 63, 2 ^ 63, "a"⟩, ⟨"2", 2 ^ 63, 2 ^ 63, "b"⟩], [], []⟩ ≠
      2 ^ 63 + 2 ^ 63 := by
  constructor <;> decide

/-- C7 (amended): TotalBytes is the sum of declared device sizes and
AllocatedBytes the sum of declared device used values, each reduced
modulo 2^64 — hence equal to the exact sum whenever that sum fits in 64
bits, and 0 on the empty device list. -/
theorem device_sums_mod : ∀ fs : FileSystem,
    fs.totalBytes = (fs.devices.map Device.size).sum % 2 ^ 64 ∧
    fs.allocatedBytes = (fs.devices.map Device.used).sum % 2 ^ 64 ∧
    ((fs.devices.map Device.size).sum < 2 ^ 64 →
      fs.totalBytes = (fs.devices.map Device.size).sum) ∧
    ((fs.devices.map Device.used).sum < 2 ^ 64 →
      fs.allocatedBytes = (fs.devices.map Device.used).sum) ∧
    (fs.devices = [] → fs.totalBytes = 0 ∧ fs.allocatedBytes = 0) := by
  intro fs
  have hsize : fs.totalBytes = (fs.devices.map Device.size).sum % 2 ^ 64 := by
    rw [FileSystem.totalBytes, ← foldl_add_mod_zero, List.foldl_map]
  have hused : fs.allocatedBytes =
      (fs.devices.map Device.used).sum % 2 ^ 64 := by
    rw [FileSystem.allocatedBytes, ← foldl_add_mod_zero, List.foldl_map]
  refine ⟨hsize, hused, fun h => ?_, fun h => ?_, fun h => ?_⟩
  · rw [hsize, Nat.mod_eq_of_lt h]
  · rw [hused, Nat.mod_eq_of_lt h]
  · rw [hsize, hused, h]; simp

/-- C7 witness: `device_sums_mod` at an aggregate with an empty device
list and at one with two small devices. -/
theorem device_sums_mod_witness :
    FileSystem.totalBytes ⟨"", "", 0, 0, "", [], [], []⟩ = 0 ∧
    FileSystem.totalBytes ⟨"", "", 0, 0, "",
      [⟨"1", 10, 4, "a"⟩, ⟨"2", 30, 5, "b"⟩], [], []⟩ =
      ([10, 30] : List Nat).sum ∧
    FileSystem.allocatedBytes ⟨"", "", 0, 0, "",
      [⟨"1", 10, 4, "a"⟩, ⟨"2", 30, 5, "b"⟩], [], []⟩ =
      ([4, 5] : List Nat).sum :=
  ⟨((device_sums_mod _).2.2.2.2 rfl).1,
   (device_sums_mod _).2.2.1 (by decide),
   (device_sums_mod _).2.2.2.1 (by decide)⟩

/-- C9: the subvolume detail parser fails on the documented
creation-time line.  The source passes only the date token
(fields[2] = "2015-06-17") to time.Parse under the layout
"2005-01-2 03:04:05", which is not Go's reference-time layout
(2006-01-02 15:04:05): its leading "2" parses as a day-of-month chunk
that consumes "20", after which the literal "0" fails to match "1", so
the parse errors and readSubvolume aborts with the timestamp error
instead of populating the creation time. -/
theorem readSubvolume_creation_time_fails :
    readSubvolumeLines ["subvol", "Creation time: 2015-06-17 10:31:09"] =
    .error (.svTime "Creation time: 2015-06-17 10:31:09") :=
  rfl

theorem parseFSShow_subvolumes_nil :
    ∀ (lines : List String) (fs : FileSystem),
      parseFSShow lines = .ok fs → fs.subvolumes = [] := by
  intro lines fs h
  unfold parseFSShow at h
  split at h
  · cases h
  · cases hacc : fsShowLoop lines.length 0 lines {} with
    | error e => rw [hacc] at h; cases h
    | ok acc =>
      rw [hacc] at h
      cases h
      rfl

theorem readFileSystemOut_subvolumes_nil :
    ∀ (showRes : CmdOutput) (fs : FileSystem),
      readFileSystemOut showRes = .ok fs → fs.subvolumes = [] := by
  intro showRes fs h
  unfold readFileSystemOut at h
  split at h
  · cases h
  · exact parseFSShow_subvolumes_nil showRes.out fs h

/-- C4: every aggregate successfully produced by GetFileSystem has an
empty subvolume collection — the orchestrator never parses the
subvolume-list output it captures (it only prints it), parseFSShow
initializes the collection empty, and nothing ever fills it, so the
Subvolumes accessor returns the empty list regardless of what the
subvolume-list report contained. -/
theorem getFileSystem_subvolumes_empty :
    ∀ (path : String) (showRes dfRes : CmdOutput)
      (svListRes : Option (List String)) (fs : FileSystem),
      getFileSystem path showRes dfRes svListRes = .ok fs →
      fs.subvolumesOf = [] := by
  intro path showRes dfRes svListRes fs h
  unfold getFileSystem at h
  split at h
  · cases h
  · cases h1 : readFileSystemOut showRes with
    | error e => rw [h1] at h; cases h
    | ok fs1 =>
      rw [h1] at h
      cases h2 : readDfDataOut dfRes with
      | error e => rw [h2] at h; cases h
      | ok dfd =>
        rw [h2] at h
        cases svListRes with
        | none => cases h
        | some sv =>
          cases h
          exact readFileSystemOut_subvolumes_nil showRes fs1 h1

/-- C4 witness: a complete successful acquisition — a two-line show
report, a three-line df report, empty stderr streams and a non-empty
subvolume-list report — whose aggregate still has no subvolumes. -/
theorem getFileSystem_subvolumes_empty_witness :
    getFileSystem "/mnt" ⟨["Label: a  uuid: b", "Btrfs v1"], []⟩
      ⟨["Data x total=1B used=1B", "Data x total=1B used=1B",
        "Data x total=1B used=1B"], []⟩
      (some ["ID 257 gen 8 top level 5 path home"]) =
      .ok ⟨"a", "b", 0, 0, "v1", [], [],
        [⟨"Data", "x", 1, 1⟩, ⟨"Data", "x", 1, 1⟩, ⟨"Data", "x", 1, 1⟩]⟩ ∧
    FileSystem.subvolumesOf ⟨"a", "b", 0, 0, "v1", [], [],
      [⟨"Data", "x", 1, 1⟩, ⟨"Data", "x", 1, 1⟩, ⟨"Data", "x", 1, 1⟩]⟩ = [] :=
  ⟨rfl, getFileSystem_subvolumes_empty "/mnt"
    ⟨["Label: a  uuid: b", "Btrfs v1"], []⟩
    ⟨["Data x total=1B used=1B", "Data x total=1B used=1B",
      "Data x total=1B used=1B"], []⟩
    (some ["ID 257 gen 8 top level 5 path home"])
    ⟨"a", "b", 0, 0, "v1", [], [],
      [⟨"Data", "x", 1, 1⟩, ⟨"Data", "x", 1, 1⟩, ⟨"Data", "x", 1, 1⟩]⟩ rfl⟩

theorem idx_eq_ok_getD :
    ∀ (l : List String) (i : Nat), i < l.length → idx l i = .ok (l.getD i "") := by
  intro l
  induction l with
  | nil => intro i h; cases h
  | cons a rest ih =>
    intro i h
    cases i with
    | zero => rfl
    | succ j =>
      have hj : j < rest.length := Nat.lt_of_succ_lt_succ h
      simpa [idx, List.getD] using ih j hj


theorem parseSubvolumes_cons_bad (readSv : String → Except Err Subvolume)
    (l : String) (rest : List String)
    (h : (goFields (goTrimSpace l)).length ≠ 9) :
    parseSubvolumes readSv (l :: rest) =
      .error (.svUnexpectedLine (goTrimSpace l)) := by
  simp [parseSubvolumes, h]

theorem parseSubvolumes_cons_ok (readSv : String → Except Err Subvolume)
    (l : String) (rest : List String)
    (h : (goFields (goTrimSpace l)).length = 9) :
    parseSubvolumes readSv (l :: rest) =
      match readSv (ninthField l) with
      | .error e => .error e
      | .ok sv =>
        match parseSubvolumes readSv rest with
        | .error e => .error e
        | .ok svs => .ok (sv :: svs) := by
  have hidx := idx_eq_ok_getD (goFields (goTrimSpace l)) 8 (by omega)
  simp [parseSubvolumes, h, hidx, ninthField]

/-- C8: the subvolume-list parser requires exactly 9 whitespace-
separated fields on every line, fails with the unexpected-output error
carrying the offending (trimmed) line text on the first line that does
not have 9 fields (given that the preceding lines were well-formed and
their detail reads succeeded), and on fully well-formed input consumes
nothing but the trailing ninth field of each line, handing it to the
per-subvolume detail reader in order. -/
theorem parseSubvolumes_shape_spec :
    (∀ (readSv : String → Except Err Subvolume) (pre post : List String)
      (line : String),
      (∀ l ∈ pre, (goFields (goTrimSpace l)).length = 9 ∧
        ∃ sv, readSv (ninthField l) = .ok sv) →
      (goFields (goTrimSpace line)).length ≠ 9 →
      parseSubvolumes readSv (pre ++ line :: post) =
        .error (.svUnexpectedLine (goTrimSpace line))) ∧
    (∀ (readSv : String → Except Err Subvolume) (lines : List String),
      (∀ l ∈ lines, (goFields (goTrimSpace l)).length = 9) →
      parseSubvolumes readSv lines = readAllNinth readSv lines) := by
  constructor
  · intro readSv pre
    induction pre with
    | nil =>
      intro post line _ h9
      exact parseSubvolumes_cons_bad readSv line post h9
    | cons l pre ih =>
      intro post line hpre h9
      obtain ⟨hl9, sv, hsv⟩ := hpre l (List.mem_cons_self l pre)
      have hrec := ih post line (fun x hx => hpre x (List.mem_cons_of_mem l hx)) h9
      rw [List.cons_append, parseSubvolumes_cons_ok readSv l _ hl9]
      simp [hsv, hrec]
  · intro readSv lines
    induction lines with
    | nil => intro _; rfl
    | cons l rest ih =>
      intro h
      have hl9 := h l (List.mem_cons_self l rest)
      have hrec := ih (fun x hx => h x (List.mem_cons_of_mem l hx))
      rw [parseSubvolumes_cons_ok readSv l rest hl9]
      rw [hrec]
      rfl

/-- C8 witness: an 8-field line is rejected with the offending line
text, and a well-formed 9-field line is parsed by reading its trailing
path field. -/
theorem parseSubvolumes_shape_spec_witness :
    parseSubvolumes (fun p => .ok { path := p })
      ["ID 257 gen 8 top level 5 home"] =
      .error (.svUnexpectedLine "ID 257 gen 8 top level 5 home") ∧
    parseSubvolumes (fun p => .ok { path := p })
      ["ID 257 gen 8 top level 5 path home"] =
      readAllNinth (fun p => .ok { path := p })
        ["ID 257 gen 8 top level 5 path home"] :=
  ⟨parseSubvolumes_shape_spec.1 (fun p => .ok { path := p }) [] []
      "ID 257 gen 8 top level 5 home" (by simp) (by decide),
   parseSubvolumes_shape_spec.2 (fun p => .ok { path := p })
      ["ID 257 gen 8 top level 5 path home"] (by decide)⟩

theorem idx_ok_of_lt (l : List String) (i : Nat) (h : i < l.length) :
    ∃ a, idx l i = .ok a :=
  ⟨_, idx_eq_ok_getD l i h⟩

theorem parseSize_no_oob (s : String) :
    parseSize s ≠ .error .indexOutOfRange := by
  unfold parseSize
  dsimp only
  split
  · simp
  · split <;> simp

theorem startsWithCh_subset :
    ∀ (s p : List Char), startsWithCh s p = true → ∀ c ∈ p, c ∈ s := by
  intro s
  induction s with
  | nil =>
    intro p h c hc
    cases p with
    | nil => cases hc
    | cons q qs => simp [startsWithCh] at h
  | cons a s2 ih =>
    intro p h c hc
    cases p with
    | nil => cases hc
    | cons q qs =>
      simp only [startsWithCh, Bool.and_eq_true, decide_eq_true_eq] at h
      rcases h with ⟨haq, hrest⟩
      rcases List.mem_cons.mp hc with hcq | hcs
      · subst hcq
        rw [← haq]
        exact List.mem_cons_self a s2
      · exact List.mem_cons_of_mem a (ih qs hrest c hcs)

theorem splitAfterChAux_length_pos :
    ∀ (l acc : List Char), 1 ≤ (splitAfterChAux '=' l acc).length := by
  intro l
  induction l with
  | nil => intro acc; simp [splitAfterChAux]
  | cons c rest ih =>
    intro acc
    by_cases hc : c = '='
    · simp only [splitAfterChAux, if_pos hc, List.length_cons]
      omega
    · simp only [splitAfterChAux, if_neg hc]
      exact ih _

theorem splitAfterChAux_length_two :
    ∀ (l acc : List Char), '=' ∈ l →
      2 ≤ (splitAfterChAux '=' l acc).length := by
  intro l
  induction l with
  | nil => intro acc h; cases h
  | cons c rest ih =>
    intro acc h
    by_cases hc : c = '='
    · simp only [splitAfterChAux, if_pos hc, List.length_cons]
      have h1 := splitAfterChAux_length_pos rest []
      omega
    · have hm : '=' ∈ rest := by
        rcases List.mem_cons.mp h with h1 | h1
        · exact absurd h1.symm hc
        · exact h1
      simp only [splitAfterChAux, if_neg hc]
      exact ih _ hm

theorem goSplitAfterEq_len (s : String) (h : '=' ∈ s.data) :
    2 ≤ (goSplitAfterEq s).length := by
  unfold goSplitAfterEq
  rw [List.length_map]
  exact splitAfterChAux_length_two s.data [] h

theorem parseDFLines_no_oob :
    ∀ lines : List String, (∀ l ∈ lines, goFields (goTrimSpace l) ≠ []) →
      parseDFLines lines ≠ .error .indexOutOfRange := by
  intro lines
  induction lines with
  | nil => intro _; simp [parseDFLines]
  | cons l rest ih =>
    intro h
    have hl : goFields (goTrimSpace l) ≠ [] := h l (List.mem_cons_self l rest)
    have hrest := ih (fun x hx => h x (List.mem_cons_of_mem l hx))
    have h0 : 0 < (goFields (goTrimSpace l)).length := List.length_pos.mpr hl
    obtain ⟨f0, hf0⟩ := idx_ok_of_lt _ 0 h0
    simp only [parseDFLines, hf0]
    by_cases hcls : f0 = "Data" ∨ f0 = "System" ∨ f0 = "Metadata" ∨
        f0 = "GlobalReserve"
    case neg => simp [hcls]
    case pos =>
      simp only [if_pos hcls]
      by_cases hlen : (goFields (goTrimSpace l)).length ≠ 4
      · simp [if_pos hlen]
      · simp only [if_neg hlen]
        have hlen4 : (goFields (goTrimSpace l)).length = 4 := not_ne_iff.mp hlen
        obtain ⟨f2, hf2⟩ := idx_ok_of_lt (goFields (goTrimSpace l)) 2 (by omega)
        simp only [hf2]
        by_cases hT : goStartsWith f2 "total=" = true
        case neg => simp [hT]
        case pos =>
          simp only [if_pos hT]
          have hmemT : '=' ∈ f2.data :=
            startsWithCh_subset f2.data "total=".data hT '=' (by decide)
          obtain ⟨ts, hts⟩ := idx_ok_of_lt (goSplitAfterEq f2) 1
            (by have := goSplitAfterEq_len f2 hmemT; omega)
          simp only [hts]
          cases hps : parseSize ts with
          | error e =>
            simp only [hps]
            intro heq
            injection heq with heq2
            exact parseSize_no_oob ts (by rw [hps, heq2])
          | ok tb =>
            simp only [hps]
            obtain ⟨f3, hf3⟩ := idx_ok_of_lt (goFields (goTrimSpace l)) 3 (by omega)
            simp only [hf3]
            by_cases hU : goStartsWith f3 "used=" = true
            case neg => simp [hU]
            case pos =>
              simp only [if_pos hU]
              have hmemU : '=' ∈ f3.data :=
                startsWithCh_subset f3.data "used=".data hU '=' (by decide)
              obtain ⟨us, hus⟩ := idx_ok_of_lt (goSplitAfterEq f3) 1
                (by have := goSplitAfterEq_len f3 hmemU; omega)
              simp only [hus]
              cases hpu : parseSize us with
              | error e =>
                simp only [hpu]
                intro heq
                injection heq with heq2
                exact parseSize_no_oob us (by rw [hpu, heq2])
              | ok ub =>
                simp only [hpu]
                obtain ⟨f1, hf1⟩ := idx_ok_of_lt (goFields (goTrimSpace l)) 1 (by omega)
                simp only [hf1]
                cases hr : parseDFLines rest with
                | error e =>
                  simp only [hr]
                  intro heq
                  injection heq with heq2
                  exact hrest (by rw [hr, heq2])
                | ok dfr => simp [hr]

theorem svLineStep_no_oob (sv : Subvolume) (l : String) (hs : svLineSafe l) :
    svLineStep sv l ≠ .error .indexOutOfRange := by
  obtain ⟨hne, hName, hUuid, hParentU, hCreation, hObject, hGeneration, hGen,
    hParent, hTop⟩ := hs
  have h0 : 0 < (goFields (goTrimSpace l)).length := List.length_pos.mpr hne
  have hf0 := idx_eq_ok_getD (goFields (goTrimSpace l)) 0 h0
  simp only [svLineStep, hf0]
  by_cases h1 : (goFields (goTrimSpace l)).getD 0 "" = "Name:"
  · obtain ⟨a, ha⟩ := idx_ok_of_lt (goFields (goTrimSpace l)) 1
      (by have := hName h1; omega)
    rw [if_pos h1, ha]
    simp
  · rw [if_neg h1]
    by_cases h2 : (goFields (goTrimSpace l)).getD 0 "" = "uuid:"
    · obtain ⟨a, ha⟩ := idx_ok_of_lt (goFields (goTrimSpace l)) 1
        (by have := hUuid h2; omega)
      rw [if_pos h2, ha]
      simp
    · rw [if_neg h2]
      by_cases h3 : (goFields (goTrimSpace l)).getD 0 "" = "Parent"
      · obtain ⟨a, ha⟩ := idx_ok_of_lt (goFields (goTrimSpace l)) 2
          (by have := hParentU h3; omega)
        rw [if_pos h3, ha]
        simp
      · rw [if_neg h3]
        by_cases h4 : (goFields (goTrimSpace l)).getD 0 "" = "Creation"
        · obtain ⟨a, ha⟩ := idx_ok_of_lt (goFields (goTrimSpace l)) 2
            (by have := hCreation h4; omega)
          rw [if_pos h4, ha]
          cases ht : goTimeParse2005 a <;> simp [ht]
        · rw [if_neg h4]
          by_cases h5 : (goFields (goTrimSpace l)).getD 0 "" = "Object"
          · obtain ⟨a, ha⟩ := idx_ok_of_lt (goFields (goTrimSpace l)) 2
              (by have := hObject h5; omega)
            rw [if_pos h5, ha]
            simp
          · rw [if_neg h5]
            by_cases h6 : (goFields (goTrimSpace l)).getD 0 "" = "Generation"
            · obtain ⟨a, ha⟩ := idx_ok_of_lt (goFields (goTrimSpace l)) 2
                (by have := hGeneration h6; omega)
              rw [if_pos h6, ha]
              cases hu : parseUint0x32 a <;> simp [hu]
            · rw [if_neg h6]
              by_cases h7 : (goFields (goTrimSpace l)).getD 0 "" = "Gen"
              · obtain ⟨a, ha⟩ := idx_ok_of_lt (goFields (goTrimSpace l)) 3
                  (by have := hGen h7; omega)
                rw [if_pos h7, ha]
                cases hu : parseUint0x32 a <;> simp [hu]
              · rw [if_neg h7]
                by_cases h8 : (goFields (goTrimSpace l)).getD 0 "" = "Parent:"
                · obtain ⟨a, ha⟩ := idx_ok_of_lt (goFields (goTrimSpace l)) 1
                    (by have := hParent h8; omega)
                  rw [if_pos h8, ha]
                  cases hu : parseUint0x32 a <;> simp [hu]
                · rw [if_neg h8]
                  by_cases h9 : (goFields (goTrimSpace l)).getD 0 "" = "Top"
                  · obtain ⟨a, ha⟩ := idx_ok_of_lt (goFields (goTrimSpace l)) 2
                      (by have := hTop h9; omega)
                    rw [if_pos h9, ha]
                    cases hu : parseUint0x32 a <;> simp [hu]
                  · rw [if_neg h9]
                    simp

theorem svLinesLoop_no_oob :
    ∀ (rest : List String) (n : Nat) (sv : Subvolume),
      (∀ l ∈ rest, svLineSafe l) → n ≠ 0 →
      svLinesLoop n rest sv ≠ .error .indexOutOfRange := by
  intro rest
  induction rest with
  | nil => intro n sv _ _; simp [svLinesLoop]
  | cons l rest2 ih =>
    intro n sv h hn
    simp only [svLinesLoop, if_neg hn]
    cases hs : svLineStep sv l with
    | error e =>
      simp only [hs]
      intro heq
      injection heq with heq2
      exact svLineStep_no_oob sv l (h l (List.mem_cons_self l rest2))
        (by rw [hs, heq2])
    | ok sv2 =>
      simp only [hs]
      exact ih (n + 1) sv2 (fun x hx => h x (List.mem_cons_of_mem l hx))
        (Nat.succ_ne_zero n)

/-- C10 counterexample: neither parser is total in the claimed sense —
a whitespace-only line makes `fields[0]` an out-of-range access (a Go
runtime panic, not a returned error): parseDF panics on a blank first
line of a 3-line report, and the detail parser panics on a blank line
after the skipped first line. -/
theorem parsers_panic_on_blank_lines :
    parseDF ["", "Data x total=1B used=1B", "Data x total=1B used=1B"] =
      .error .indexOutOfRange ∧
    readSubvolumeLines ["p", " "] = .error .indexOutOfRange :=
  ⟨rfl, rfl⟩

/-- C10 (amended): the space-usage parser returns a result or a returned
error — never an out-of-range access — on every input whose lines each
contain at least one non-whitespace character; the detail parser does so
on every input whose lines after the skipped first line each have at
least one field and carry every field their recognized keyword makes the
switch read.  (Blank lines violate these conditions and make both
parsers perform an out-of-range field access.) -/
theorem parsers_total_on_safe_lines :
    (∀ lines : List String, (∀ l ∈ lines, goFields (goTrimSpace l) ≠ []) →
      parseDF lines ≠ .error .indexOutOfRange) ∧
    (∀ lines : List String, (∀ l ∈ lines.drop 1, svLineSafe l) →
      readSubvolumeLines lines ≠ .error .indexOutOfRange) := by
  constructor
  · intro lines h
    unfold parseDF
    split
    · simp
    · exact parseDFLines_no_oob lines h
  · intro lines h
    cases lines with
    | nil => simp [readSubvolumeLines, svLinesLoop]
    | cons l rest =>
      unfold readSubvolumeLines
      simp only [svLinesLoop, if_pos rfl]
      exact svLinesLoop_no_oob rest 1 {} (fun x hx => h x hx) one_ne_zero

/-- C10 witness: `parsers_total_on_safe_lines` at a concrete well-formed
df report and a concrete detail report. -/
theorem parsers_total_on_safe_lines_witness :
    parseDF ["Data x total=1B used=1B", "Data x total=1B used=1B",
      "Data x total=1B used=1B"] ≠ .error .indexOutOfRange ∧
    readSubvolumeLines ["p", "Name: abc"] ≠ .error .indexOutOfRange :=
  ⟨parsers_total_on_safe_lines.1 _ (by decide),
   parsers_total_on_safe_lines.2 _ (by decide)⟩
